import Mathlib

/- Verification of the LED tracking program (src/tracker.py).

   The file gives a shallow embedding of the programs detection pipeline
   (LEDTracker.__detect_LED, __compute_center, __crop_frame), its tracking
   loop (LEDTracker.track), message preparation (MessageSender.__prepare_message)
   and the dictionary literals of the command line entry point, and proves
   theorems about them.

   Modelling conventions.
   - Intensities are naturals (the program works on unsigned 8 bit planes).
   - Python float arithmetic is modelled by exact rational arithmetic; the
     literal 1e-6 of the source is modelled by the rational 1/1000000.
   - Python int() truncation toward zero is pyInt below.
   - The OpenCV library calls are modelled at two levels.  cv2.threshold with
     THRESH_BINARY maps a pixel to 255 exactly when its value is strictly
     greater than the threshold, and region extraction finds the 8-connected
     components of the nonzero pixels in a fixed deterministic order (raster
     order of the seed pixels).  On top of that, the faithful boundary
     polygon model (cvContoursOf, cvContourArea, cvComputeCenter,
     cvDetect_LED) traces the border cycle of each component and computes the
     Green formula area and moments of the traced polygon, which is what
     cv2.contourArea and cv2.moments compute; the claims about the selected
     region and its centroid are settled against it.  A simpler component
     level idealization (findContoursM, contourArea, compute_center,
     detect_LED) identifies a contour with its filled pixel region; it is
     kept for the claims whose statements do not depend on the polygon
     measures (the sentinel characterization and the tracking pipeline),
     with the divergence disclosed at each definition.
   - The camera is modelled by its reported width and height together with
     the list of frames it will deliver before the read call fails; reaching
     the end of that list models read failure or exhaustion.  A frame is a
     grid of (b, g, r) intensity triples, matching the cv2.split order of
     line 54 of the source. -/

namespace LEDTracking

/-- One single channel intensity plane: a list of rows of pixel values. -/
abbrev Plane := List (List Nat)

/-- One color frame: rows of (b, g, r) triples, the channel order of cv2.split. -/
abbrev Frame := List (List (Nat × Nat × Nat))

/-- Detected position: pixel coordinates (x, y), or the sentinel (-1, -1). -/
abbrev Pos := Int × Int

/-- Python int() applied to a rational: truncation toward zero. -/
def pyInt (q : ℚ) : Int := if 0 ≤ q then ⌊q⌋ else ⌈q⌉

/-- The literal 1e-6 added to the moment m00 at lines 97 and 98 of the source. -/
def momentEps : ℚ := 1 / 1000000

/-- Model of cv2.threshold(frame, threshold, 255, cv2.THRESH_BINARY), line 81:
    a pixel strictly greater than the threshold becomes 255, all others 0. -/
def cvThreshold (p : Plane) (t : Nat) : Plane :=
  p.map (fun row => row.map (fun v => if t < v then 255 else 0))

/-- Coordinates (x, y) of the nonzero pixels of one row (row index y), with x
    counted from the given starting value. -/
def rowOn (y : Nat) : Nat → List Nat → List (Nat × Nat)
  | _, [] => []
  | x, v :: vs => if v ≠ 0 then (x, y) :: rowOn y (x + 1) vs else rowOn y (x + 1) vs

/-- Coordinates of the nonzero pixels of a plane, in raster order, starting at
    the given row index. -/
def planeOnFrom : Nat → Plane → List (Nat × Nat)
  | _, [] => []
  | y, row :: rows => rowOn y 0 row ++ planeOnFrom (y + 1) rows

/-- Coordinates of the nonzero pixels of a plane, in raster order. -/
def onCoords (m : Plane) : List (Nat × Nat) := planeOnFrom 0 m

/-- 8-connectivity of two distinct pixel coordinates. -/
def adj8 (a b : Nat × Nat) : Bool :=
  decide (((a.1 : Int) - (b.1 : Int)).natAbs ≤ 1) &&
  decide (((a.2 : Int) - (b.2 : Int)).natAbs ≤ 1) &&
  !(decide (a = b))

/-- One growth round of a flood fill: append every not yet collected nonzero
    pixel that is 8-adjacent to the component collected so far. -/
def growComp (ons comp : List (Nat × Nat)) : List (Nat × Nat) :=
  comp ++ ons.filter (fun q => (!(comp.any (fun c => decide (c = q)))) &&
    comp.any (fun c => adj8 c q))

/-- Fuel bounded flood fill: grow the component until a fixed point (or until
    the fuel, an upper bound on the number of rounds needed, runs out). -/
def floodFill (ons : List (Nat × Nat)) : Nat → List (Nat × Nat) → List (Nat × Nat)
  | 0, comp => comp
  | fuel + 1, comp =>
    let comp2 := growComp ons comp
    if comp2.length = comp.length then comp else floodFill ons fuel comp2

/-- Extraction of the 8-connected components of a list of nonzero pixel
    coordinates: repeatedly flood fill from the first remaining pixel.  The
    fuel is an upper bound on the number of components. -/
def extractComponents : Nat → List (Nat × Nat) → List (List (Nat × Nat))
  | 0, _ => []
  | _, [] => []
  | fuel + 1, s :: rest =>
    let comp := floodFill (s :: rest) (s :: rest).length [s]
    comp :: extractComponents fuel (rest.filter (fun q => !(comp.any (fun c => decide (c = q)))))

/-- Component extraction underlying line 82: one filled 8-connected component
    per region of nonzero pixels, in a deterministic order.  cv2.findContours
    itself returns traced boundary polygons (and, with RETR_TREE, also hole
    borders); the faithful boundary model built on these components is
    cvContoursOf below. -/
def findContoursM (m : Plane) : List (List (Nat × Nat)) :=
  extractComponents (onCoords m).length (onCoords m)

/-- Pixel count idealization of cv2.contourArea, line 85, at the component
    level.  cv2.contourArea is really the Green formula area of the traced
    boundary polygon (cvContourArea below), which is 0 for single pixels and
    one pixel thin lines, so the two area rankings diverge for thin regions;
    see the claim C3 counterexample. -/
def contourArea (c : List (Nat × Nat)) : ℚ := c.length

/-- Moment m10 of a component: the sum of the x coordinates of its pixels. -/
def sumX (c : List (Nat × Nat)) : Nat := (c.map Prod.fst).sum

/-- Moment m01 of a component: the sum of the y coordinates of its pixels. -/
def sumY (c : List (Nat × Nat)) : Nat := (c.map Prod.snd).sum

/-- One coordinate of the centroid computation of line 98 of the source:
    int(m10 / (m00 + 1e-6)) with moment sum s and area a. -/
def epsCentroidCoord (s a : Nat) : Int :=
  pyInt ((s : ℚ) / ((a : ℚ) + momentEps))

/-- The truncated quotient int(s / a) with no epsilon in the denominator: the
    centroid coordinate exactly as the specification words it. -/
def exactCentroidCoord (s a : Nat) : Int :=
  pyInt ((s : ℚ) / (a : ℚ))

/-- The centroid formula as the specification words it (section 4.3 step 5):
    x equals the sum of the pixel x coordinates divided by the area, truncated
    to an integer, and likewise for y, with no epsilon in the denominator. -/
def specTruncatedMean (c : List (Nat × Nat)) : Pos :=
  (exactCentroidCoord (sumX c) c.length, exactCentroidCoord (sumY c) c.length)

/-- Component level idealization of LEDTracker.__compute_center, lines 88 to
    98, with pixel sum moments: the epsilon guarded truncated centroid of the
    filled region.  cv2.moments of a contour are Green formula polygon
    moments (all zero for degenerate thin contours), modelled faithfully by
    cvComputeCenter below; the two centers diverge for thin or asymmetric
    regions, see the claim C2 counterexample. -/
def compute_center (c : List (Nat × Nat)) : Pos :=
  (epsCentroidCoord (sumX c) c.length, epsCentroidCoord (sumY c) c.length)

/-- The maximum of a list of rationals (meaningful on nonempty lists). -/
def listMaxQ : List ℚ → ℚ
  | [] => 0
  | [x] => x
  | x :: y :: xs => max x (listMaxQ (y :: xs))

/-- Model of np.argmax, line 85: the first index at which the maximum of the
    list is attained. -/
def npArgmax : List ℚ → Nat
  | [] => 0
  | [_] => 0
  | x :: y :: xs => if listMaxQ (y :: xs) ≤ x then 0 else npArgmax (y :: xs) + 1

/-- The contour list computed by LEDTracker.__detect_LED for a plane and a
    threshold, lines 81 and 82. -/
def contoursOf (p : Plane) (t : Nat) : List (List (Nat × Nat)) :=
  findContoursM (cvThreshold p t)

/-- LEDTracker.__detect_LED, lines 69 to 86, at the component level:
    threshold the plane, extract the contours, return the sentinel when there
    are none, else the center of the contour of greatest area (first such
    index under np.argmax).  The boundary polygon model of the same function,
    faithful to the cv2 area and moment semantics, is cvDetect_LED below;
    this level is used by the claims whose truth does not depend on that
    distinction. -/
def detect_LED (p : Plane) (t : Nat) : Pos :=
  if contoursOf p t = [] then (-1, -1)
  else compute_center
    ((contoursOf p t).getD (npArgmax ((contoursOf p t).map contourArea)) [])

/-- The contour selected by detect_LED, when any exists: the same selection as
    in detect_LED, exposed for stating theorems about the chosen region. -/
def detectSelected (p : Plane) (t : Nat) : Option (List (Nat × Nat)) :=
  if contoursOf p t = [] then none
  else some ((contoursOf p t).getD (npArgmax ((contoursOf p t).map contourArea)) [])

/-- The maximum of a list of naturals, mirroring listMaxQ. -/
def listMaxNat : List Nat → Nat
  | [] => 0
  | [x] => x
  | x :: y :: xs => max x (listMaxNat (y :: xs))

/-- First index of the maximum of a list of naturals, mirroring npArgmax.
    Since the modelled contour areas are whole pixel counts, selection over
    the rational areas agrees with selection over these naturals (proved
    below); this mirror exists so that concrete runs reduce inside proofs. -/
def npArgmaxNat : List Nat → Nat
  | [] => 0
  | [_] => 0
  | x :: y :: xs => if listMaxNat (y :: xs) ≤ x then 0 else npArgmaxNat (y :: xs) + 1

/-- Natural number form of the epsilon guarded centroid coordinate: the floor
    of s / (a + 1/1000000) equals the natural division of 1000000 s by
    1000000 a + 1 (proved below); this mirror exists so that concrete runs
    reduce inside proofs. -/
def centerNat (c : List (Nat × Nat)) : Pos :=
  (((1000000 * sumX c) / (1000000 * c.length + 1) : Nat),
   ((1000000 * sumY c) / (1000000 * c.length + 1) : Nat))

/-- Natural number mirror of detect_LED (proved equal to it below). -/
def detectNat (p : Plane) (t : Nat) : Pos :=
  if contoursOf p t = [] then (-1, -1)
  else centerNat
    ((contoursOf p t).getD (npArgmaxNat ((contoursOf p t).map List.length)) [])

/-- Natural number mirror of detectSelected (proved equal to it below). -/
def detectSelectedNat (p : Plane) (t : Nat) : Option (List (Nat × Nat)) :=
  if contoursOf p t = [] then none
  else some ((contoursOf p t).getD (npArgmaxNat ((contoursOf p t).map List.length)) [])

/- Boundary polygon model of the cv2 contour measures.  cv2.findContours
   returns, for each region, the traced border polygon of pixel coordinates,
   and cv2.contourArea and cv2.moments compute Green formula quantities of
   that polygon, not of the filled pixel region: a single pixel or a one
   pixel thin line has contour area 0 and all moments 0, and a solid k by k
   block has polygon area (k-1) squared.  The definitions below realize this:
   a Moore neighbor border trace of each component (clockwise in image
   coordinates, the orientation for which cv2 reports positive m00 on outer
   borders) and the Green formula area and moments of the traced cycle.
   CHAIN_APPROX_SIMPLE only removes collinear intermediate points, which
   leaves every Green formula quantity unchanged, so the uncompressed trace
   is used; hole borders (RETR_TREE inner contours) are not modelled, and the
   trace stops at the first return to its start pixel — all concrete inputs
   used below are hole free regions whose outer border visits its start pixel
   once, where the trace coincides with the cv2 border following. -/

/-- The eight neighbor offsets in clockwise order (image coordinates, y down):
    east, southeast, south, southwest, west, northwest, north, northeast. -/
def mooreOffsets : List (Int × Int) :=
  [(1, 0), (1, 1), (0, 1), (-1, 1), (-1, 0), (-1, -1), (0, -1), (1, -1)]

/-- The offset at a direction index, modulo 8. -/
def offAt (k : Nat) : Int × Int := mooreOffsets.getD (k % 8) (0, 0)

/-- Whether an integer coordinate lies in the component. -/
def fgMem (comp : List (Nat × Nat)) (q : Int × Int) : Bool :=
  comp.any (fun c => decide (((c.1 : Int), (c.2 : Int)) = q))

/-- Move one step from a coordinate in the given direction. -/
def addOff (c : Int × Int) (k : Nat) : Int × Int := (c.1 + (offAt k).1, c.2 + (offAt k).2)

/-- The direction index leading from the first coordinate to the second
    (meaningful for neighboring coordinates). -/
def dirBetween (a b : Int × Int) : Nat :=
  mooreOffsets.findIdx (fun o => decide (o = (b.1 - a.1, b.2 - a.2)))

/-- Scan the neighbors of the current border pixel in the given clockwise
    direction order; the first component pixel found is the next border
    pixel, paired with the direction back to the last background cell
    examined before it (the new backtrack direction). -/
def mooreScan (comp : List (Nat × Nat)) (c : Int × Int) : List Nat → Nat → Option ((Int × Int) × Nat)
  | [], _ => none
  | k :: ks, prev =>
    if fgMem comp (addOff c k) then some (addOff c k, dirBetween (addOff c k) (addOff c prev))
    else mooreScan comp c ks k

/-- One step of the border following: scan the eight directions clockwise,
    starting just after the backtrack direction. -/
def mooreNext (comp : List (Nat × Nat)) (c : Int × Int) (bIdx : Nat) : Option ((Int × Int) × Nat) :=
  mooreScan comp c ((List.range 8).map (fun k => (bIdx + 1 + k) % 8)) bIdx

/-- Fuel bounded Moore border following, collecting border pixels until the
    walk returns to its start. -/
def mooreTrace (comp : List (Nat × Nat)) (start : Int × Int) : Nat → (Int × Int) → Nat → List (Int × Int)
  | 0, _, _ => []
  | fuel + 1, c, bIdx =>
    match mooreNext comp c bIdx with
    | none => []
    | some (n, bIdx2) => if n = start then [] else n :: mooreTrace comp start fuel n bIdx2

/-- The traced outer border cycle of a component, started at its raster first
    pixel (whose west, northwest, north and northeast neighbors are
    background) with the backtrack initialized to the west, as in the cv2
    border following. -/
def traceContour (comp : List (Nat × Nat)) : List (Nat × Nat) :=
  match comp with
  | [] => []
  | s :: _ =>
    s :: (mooreTrace comp ((s.1 : Int), (s.2 : Int)) (8 * comp.length + 8)
      ((s.1 : Int), (s.2 : Int)) 4).map (fun q => (q.1.toNat, q.2.toNat))

/-- The consecutive vertex pairs of a closed polygon (wrapping around). -/
def cyclePairs (poly : List (Nat × Nat)) : List ((Nat × Nat) × (Nat × Nat)) :=
  match poly with
  | [] => []
  | v :: vs => List.zip (v :: vs) (vs ++ [v])

/-- The cross product term of one polygon edge in the shoelace formula. -/
def cross2 (a b : Nat × Nat) : Int := (a.1 : Int) * (b.2 : Int) - (b.1 : Int) * (a.2 : Int)

/-- Twice the signed Green formula area of a closed polygon. -/
def shoelace (poly : List (Nat × Nat)) : Int :=
  ((cyclePairs poly).map (fun e => cross2 e.1 e.2)).sum

/-- Six times the Green formula moment m10 of a closed polygon. -/
def m10Num (poly : List (Nat × Nat)) : Int :=
  ((cyclePairs poly).map (fun e => ((e.1.1 : Int) + (e.2.1 : Int)) * cross2 e.1 e.2)).sum

/-- Six times the Green formula moment m01 of a closed polygon. -/
def m01Num (poly : List (Nat × Nat)) : Int :=
  ((cyclePairs poly).map (fun e => ((e.1.2 : Int) + (e.2.2 : Int)) * cross2 e.1 e.2)).sum

/-- The moment m00 of cv2.moments on a contour: the signed Green area. -/
def greenM00 (poly : List (Nat × Nat)) : ℚ := (shoelace poly : ℚ) / 2

/-- The moment m10 of cv2.moments on a contour. -/
def greenM10 (poly : List (Nat × Nat)) : ℚ := (m10Num poly : ℚ) / 6

/-- The moment m01 of cv2.moments on a contour. -/
def greenM01 (poly : List (Nat × Nat)) : ℚ := (m01Num poly : ℚ) / 6

/-- Half of a natural number as a rational (the shape in which polygon areas
    arise; a named function so that rewriting under maps is stable). -/
def halfCast (n : Nat) : ℚ := (n : ℚ) / 2

/-- cv2.contourArea, line 85, on a traced contour: the absolute Green formula
    area of the polygon. -/
def cvContourArea (poly : List (Nat × Nat)) : ℚ := halfCast (shoelace poly).natAbs

/-- LEDTracker.__compute_center, lines 88 to 98, over the faithful polygon
    moments: int(m10 / (m00 + 1e-6)) and int(m01 / (m00 + 1e-6)) with the
    Green formula moments of the traced contour. -/
def cvComputeCenter (poly : List (Nat × Nat)) : Pos :=
  (pyInt (greenM10 poly / (greenM00 poly + momentEps)),
   pyInt (greenM01 poly / (greenM00 poly + momentEps)))

/-- cv2.findContours, line 82, in the boundary polygon model: the traced
    outer border of each component, in the extraction order. -/
def cvContoursOf (p : Plane) (t : Nat) : List (List (Nat × Nat)) :=
  (contoursOf p t).map traceContour

/-- LEDTracker.__detect_LED, lines 69 to 86, in the boundary polygon model:
    sentinel when there is no contour, else the epsilon guarded center of the
    contour with the greatest cv2.contourArea (first such index under
    np.argmax). -/
def cvDetect_LED (p : Plane) (t : Nat) : Pos :=
  if cvContoursOf p t = [] then (-1, -1)
  else cvComputeCenter
    ((cvContoursOf p t).getD (npArgmax ((cvContoursOf p t).map cvContourArea)) [])

/-- The contour cvDetect_LED selects, when any exists. -/
def cvDetectSelected (p : Plane) (t : Nat) : Option (List (Nat × Nat)) :=
  if cvContoursOf p t = [] then none
  else some ((cvContoursOf p t).getD (npArgmax ((cvContoursOf p t).map cvContourArea)) [])

/-- Natural number mirror of cvDetectSelected: the area ranking of the
    rationals |shoelace| / 2 agrees with that of the naturals |shoelace|
    (proved below); this mirror exists so that concrete runs reduce inside
    proofs. -/
def cvDetectSelectedNat (p : Plane) (t : Nat) : Option (List (Nat × Nat)) :=
  if cvContoursOf p t = [] then none
  else some ((cvContoursOf p t).getD
    (npArgmaxNat ((cvContoursOf p t).map (fun c => (shoelace c).natAbs))) [])

/-- Natural number form of the polygon moment center (proved equal to
    cvComputeCenter below for nonnegative moments): with m10 = M10 / 6 and
    m00 = M00 / 2, the floor of m10 / (m00 + 1e-6) is the natural division
    of 1000000 M10 by 3000000 M00 + 6. -/
def cvCenterNat (poly : List (Nat × Nat)) : Pos :=
  ((((1000000 * (m10Num poly).toNat) / (3000000 * (shoelace poly).toNat + 6) : Nat) : Int),
   (((1000000 * (m01Num poly).toNat) / (3000000 * (shoelace poly).toNat + 6) : Nat) : Int))

/-- LEDTracker.__crop_frame, lines 100 to 108: numpy slicing frame[T:B, L:R]
    for a region of interest (T, L, B, R), which silently clamps to the frame
    bounds; with no region of interest the frame passes through unchanged. -/
def crop_frame (f : Frame) (roi : Option (Nat × Nat × Nat × Nat)) : Frame :=
  match roi with
  | none => f
  | some (t, l, b, r) => ((f.drop t).take (b - t)).map (fun row => (row.drop l).take (r - l))

/-- The blue plane of a frame (first component of the cv2.split order). -/
def planeB (f : Frame) : Plane := f.map (fun row => row.map (fun px => px.1))

/-- The green plane of a frame. -/
def planeG (f : Frame) : Plane := f.map (fun row => row.map (fun px => px.2.1))

/-- The red plane of a frame. -/
def planeR (f : Frame) : Plane := f.map (fun row => row.map (fun px => px.2.2))

/-- Model of cv2.split, line 54: the (b, g, r) planes of a frame. -/
def cvSplit (f : Frame) : Plane × Plane × Plane := (planeB f, planeG f, planeR f)

/-- The color_planes dictionary of line 55: keys r, g, b in that order. -/
def channelPlanes (f : Frame) : List (String × Plane) :=
  [("r", planeR f), ("g", planeG f), ("b", planeB f)]

/-- The plane a given channel key selects from a frame (the value
    color_planes[c] has for the known keys). -/
def channelPlaneOf (c : String) (f : Frame) : Plane :=
  if c = "r" then planeR f else if c = "g" then planeG f else planeB f

/-- Python dictionary lookup as an optional value: a missing key, which in
    Python raises KeyError, is None here. -/
def lookupStr {α : Type} (l : List (String × α)) (k : String) : Option α :=
  (l.find? (fun kv => kv.1 == k)).map Prod.snd

/-- The camera as seen by the tracker: the width and height it reports for
    CAP_PROP_FRAME_WIDTH and CAP_PROP_FRAME_HEIGHT (whole pixel counts,
    reported by cv2 as floats with integral values), and the frames its read
    calls will deliver before a read fails. -/
structure CameraDev where
  width : Nat
  height : Nat

/-- The state LEDTracker.__init__ stores, lines 8 to 27: the thresholds
    dictionary (an association list here), the optional region of interest,
    and the frame size the camera reports at construction time (before any
    cropping). -/
structure TrackerCfg where
  thresholds : List (String × Nat)
  roi : Option (Nat × Nat × Nat × Nat)
  frame_size : Nat × Nat

/-- LEDTracker.__init__, lines 8 to 27: the constructor stores the thresholds
    and the region of interest without any validation and records the frame
    size the camera reports.  It is a total function: no configuration is
    rejected. -/
def LEDTracker.init (thresholds : List (String × Nat)) (roi : Option (Nat × Nat × Nat × Nat))
    (cam : CameraDev) : TrackerCfg :=
  { thresholds := thresholds, roi := roi, frame_size := (cam.width, cam.height) }

/-- The per channel detections of one frame, lines 57 to 60: for each entry of
    the thresholds dictionary, look the channel up in color_planes (None on an
    unknown key, modelling the KeyError the source raises mid frame) and run
    the detector. -/
def detectAll (planes : List (String × Plane)) : List (String × Nat) → Option (List (String × Pos))
  | [] => some []
  | ct :: cts =>
    match lookupStr planes ct.1, detectAll planes cts with
    | some pl, some rest => some ((ct.1, detect_LED pl ct.2) :: rest)
    | _, _ => none

/-- One iteration of the tracking loop on one frame, lines 53 to 60: crop,
    split, detect per configured channel. -/
def processFrame (cfg : TrackerCfg) (f : Frame) : Option (List (String × Pos)) :=
  detectAll (channelPlanes (crop_frame f cfg.roi)) cfg.thresholds

/-- Per channel trajectories, keyed like the thresholds dictionary. -/
abbrev Trajs := List (String × List Pos)

/-- The log of send_message calls: for each frame, the per channel positions
    and the frame size passed to the callback at line 62. -/
abbrev MsgLog := List (List (String × Pos) × (Nat × Nat))

/-- Extend every trajectory with the detection of the current frame (the
    appends of line 59, with the accumulated tail shared positionally). -/
def consTrajs : List (String × Pos) → Trajs → Trajs :=
  List.zipWith (fun p tr => (p.1, p.2 :: tr.2))

/-- LEDTracker.track, lines 32 to 67: loop over the frames the camera delivers;
    a failing read ends the loop and the trajectories are returned.  Each
    iteration appends one position per configured channel and passes the
    positions and the stored frame size to send_message.  None models the
    KeyError an unknown channel key raises while a frame is processed. -/
def LEDTracker.track (cfg : TrackerCfg) : List Frame → Option (Trajs × MsgLog)
  | [] => some (cfg.thresholds.map (fun ct => (ct.1, [])), [])
  | f :: fs =>
    match processFrame cfg f, LEDTracker.track cfg fs with
    | some ps, some (trajs, msgs) => some (consTrajs ps trajs, (ps, cfg.frame_size) :: msgs)
    | _, _ => none

/-- Natural number mirror of detectAll (proved equal to it below). -/
def detectAllNat (planes : List (String × Plane)) : List (String × Nat) → Option (List (String × Pos))
  | [] => some []
  | ct :: cts =>
    match lookupStr planes ct.1, detectAllNat planes cts with
    | some pl, some rest => some ((ct.1, detectNat pl ct.2) :: rest)
    | _, _ => none

/-- Natural number mirror of processFrame (proved equal to it below). -/
def processFrameNat (cfg : TrackerCfg) (f : Frame) : Option (List (String × Pos)) :=
  detectAllNat (channelPlanes (crop_frame f cfg.roi)) cfg.thresholds

/-- Natural number mirror of LEDTracker.track (proved equal to it below); it
    exists so that concrete tracking runs reduce inside proofs. -/
def LEDTracker.trackNat (cfg : TrackerCfg) : List Frame → Option (Trajs × MsgLog)
  | [] => some (cfg.thresholds.map (fun ct => (ct.1, [])), [])
  | f :: fs =>
    match processFrameNat cfg f, LEDTracker.trackNat cfg fs with
    | some ps, some (trajs, msgs) => some (consTrajs ps trajs, (ps, cfg.frame_size) :: msgs)
    | _, _ => none

/-- MessageSender.__prepare_message, lines 136 to 151: pixel coordinate mode or
    the sentinel pass the position through as floats; otherwise divide by the
    frame size; the frame size is appended to the message in both cases. -/
def prepare_message (pixel_coords : Bool) (position : Pos) (frame_size : Nat × Nat) :
    ℚ × ℚ × ℚ × ℚ :=
  if pixel_coords || decide (position = (-1, -1)) then
    ((position.1 : ℚ), (position.2 : ℚ), (frame_size.1 : ℚ), (frame_size.2 : ℚ))
  else
    ((position.1 : ℚ) / (frame_size.1 : ℚ), (position.2 : ℚ) / (frame_size.2 : ℚ),
      (frame_size.1 : ℚ), (frame_size.2 : ℚ))

/-- MessageSender.send_message, lines 124 to 134, applied to the log of one
    tracking session: the wire messages produced per frame and channel. -/
def sentMessages (pixel_coords : Bool) (log : MsgLog) :
    List (List (String × (ℚ × ℚ × ℚ × ℚ))) :=
  log.map (fun e => e.1.map (fun cp => (cp.1, prepare_message pixel_coords cp.2 e.2)))

/-- Insertion into a Python dictionary: an existing key keeps its position and
    its value is overwritten, a new key is appended. -/
def dictInsert {α : Type} (d : List (String × α)) (k : String) (v : α) : List (String × α) :=
  if d.any (fun kv => kv.1 == k) then
    d.map (fun kv => if kv.1 == k then (kv.1, v) else kv)
  else d ++ [(k, v)]

/-- A Python dictionary literal: the written key value pairs inserted left to
    right, so a duplicated key keeps its first position and its last value. -/
def dictLit {α : Type} (items : List (String × α)) : List (String × α) :=
  items.foldl (fun d kv => dictInsert d kv.1 kv.2) []

/-- The thresholds dictionary literal of line 171 of the source, with its
    duplicated b key: the literal is written r, b, b with the g threshold as
    the first b value. -/
def mainThresholds (rThr gThr bThr : Nat) : List (String × Nat) :=
  dictLit [("r", rThr), ("b", gThr), ("b", bThr)]

/-- The ports dictionary literal of line 170 of the source, with its duplicated
    b key: the literal is written r, b, b with the g port as the first b value. -/
def mainPorts (rPort gPort bPort : Nat) : List (String × Nat) :=
  dictLit [("r", rPort), ("b", gPort), ("b", bPort)]

/-- The external calls one iteration of the tracking loop performs. -/
inductive LoopEvent where
  | readFrame
  | cropStep
  | splitStep
  | detectStep
  | appendStep
  | sendStep
  | imshowStep
  | waitKeyStep
  deriving DecidableEq

/-- Whether a loop call blocks awaiting external input: the camera read of
    line 49 blocks until a frame or a failure arrives, and cv2.waitKey(0) of
    line 65 waits indefinitely for a key press (an OpenCV delay of 0 means
    wait forever); the remaining calls compute, draw or send without waiting. -/
def LoopEvent.isExternalWait : LoopEvent → Bool
  | .readFrame => true
  | .waitKeyStep => true
  | _ => false

/-- The body of the while loop of LEDTracker.track in source order, lines 49 to
    65: read, crop, split, the per channel detect and append block, the
    send_message call, cv2.imshow, cv2.waitKey(0). -/
def loopBodyEvents : List LoopEvent :=
  [.readFrame, .cropStep, .splitStep, .detectStep, .appendStep,
   .sendStep, .imshowStep, .waitKeyStep]

/-- A fully bright 3 by 3 plane: one nine pixel region whose exact mean pixel
    coordinate is the integer 1 in both axes. -/
def c2plane : Plane := [[255, 255, 255], [255, 255, 255], [255, 255, 255]]

/-- A fully bright 5 by 5 plane: one region of area 25 with coordinate sums 50,
    whose exact mean pixel coordinate is the integer 2 in both axes. -/
def c8plane : Plane := List.replicate 5 (List.replicate 5 200)

/-- A plane with a five pixel thin line (columns 1 to 5 of row 0, pixel area
    5) and a disjoint two by two block (columns 2 and 3 of rows 3 and 4,
    pixel area 4): the line has the greater pixel area, but its traced
    contour has Green area 0 while the block contour has Green area 1. -/
def c3plane : Plane :=
  [[0, 200, 200, 200, 200, 200, 0],
   [0, 0, 0, 0, 0, 0, 0],
   [0, 0, 0, 0, 0, 0, 0],
   [0, 0, 200, 200, 0, 0, 0],
   [0, 0, 200, 200, 0, 0, 0]]

/-- A plane whose single region is the L shaped set of pixels (5,0), (6,0),
    (7,0), (8,0), (5,1): its truncated pixel mean is (6, 0), but the Green
    moments of its traced contour are m00 = 1/2, m10 = 8/3, m01 = 1/6, so the
    program returns (5, 0). -/
def lplane : Plane :=
  [[0, 0, 0, 0, 0, 200, 200, 200, 200],
   [0, 0, 0, 0, 0, 200, 0, 0, 0]]

/-- A fully bright 6 by 3 plane: its traced contour is the border ring of the
    block, with whole Green moments m00 = 10, m10 = 25, m01 = 10. -/
def blockPlane : Plane := List.replicate 3 (List.replicate 6 200)

/-- The traced border ring of the 6 by 3 block, as cvContoursOf extracts it. -/
def blockRing : List (Nat × Nat) :=
  [(0, 0), (1, 0), (2, 0), (3, 0), (4, 0), (5, 0), (5, 1), (5, 2),
   (4, 2), (3, 2), (2, 2), (1, 2), (0, 2), (0, 1)]

/-- The traced border ring of the fully bright 3 by 3 plane. -/
def c2ring : List (Nat × Nat) :=
  [(0, 0), (1, 0), (2, 0), (2, 1), (2, 2), (1, 2), (0, 2), (0, 1)]

/-- The traced contour of the L shaped region of lplane (an out and back
    walk along the thin arm, then the foot pixel). -/
def lring : List (Nat × Nat) :=
  [(5, 0), (6, 0), (7, 0), (8, 0), (7, 0), (6, 0), (5, 1)]

/-- An all dark 8 pixel row of (b, g, r) triples. -/
def darkRow : List (Nat × Nat × Nat) := List.replicate 8 (0, 0, 0)

/-- An 8 pixel row that is bright in the red channel at columns 3 and 4. -/
def brightRow : List (Nat × Nat × Nat) :=
  [(0, 0, 0), (0, 0, 0), (0, 0, 0), (0, 0, 255), (0, 0, 255), (0, 0, 0), (0, 0, 0), (0, 0, 0)]

/-- An 8 by 8 frame, bright in the red channel at rows 2 and 3, columns 3 and 4. -/
def roiFrame : Frame := [darkRow, darkRow, brightRow, brightRow, darkRow, darkRow, darkRow, darkRow]

/-- A 2 by 2 frame whose red channel is 10 everywhere. -/
def c6frame : Frame := [[(0, 0, 10), (0, 0, 10)], [(0, 0, 10), (0, 0, 10)]]

/-- A 2 by 2 frame whose red channel is 255 everywhere. -/
def c7frame : Frame := [[(0, 0, 255), (0, 0, 255)], [(0, 0, 255), (0, 0, 255)]]

/- ------------------------------------------------------------------ -/
/- Helper lemmas.                                                      -/
/- ------------------------------------------------------------------ -/

lemma rowOn_thresh_eq_nil_iff (y t : Nat) :
    ∀ (x : Nat) (vs : List Nat),
      rowOn y x (vs.map (fun v => if t < v then 255 else 0)) = [] ↔ ∀ v ∈ vs, v ≤ t := by
  intro x vs
  induction vs generalizing x with
  | nil => simp [rowOn]
  | cons v vs ih =>
    by_cases h : t < v
    · simp only [List.map_cons, if_pos h, rowOn]
      simp only [List.mem_cons]
      constructor
      · intro hfalse
        exact absurd hfalse (by simp)
      · intro hall
        exact absurd (hall v (Or.inl rfl)) (by omega)
    · simp only [List.map_cons, if_neg h, rowOn]
      simp only [ne_eq, not_true_eq_false, if_false, List.mem_cons]
      rw [ih (x + 1)]
      constructor
      · intro hall u hu
        rcases hu with rfl | hu
        · omega
        · exact hall u hu
      · intro hall u hu
        exact hall u (Or.inr hu)

lemma planeOnFrom_thresh_eq_nil_iff (t : Nat) :
    ∀ (y : Nat) (rows : Plane),
      planeOnFrom y (cvThreshold rows t) = [] ↔ ∀ row ∈ rows, ∀ v ∈ row, v ≤ t := by
  intro y rows
  induction rows generalizing y with
  | nil => simp [planeOnFrom, cvThreshold]
  | cons row rows ih =>
    simp only [cvThreshold, List.map_cons, planeOnFrom, List.append_eq_nil, List.mem_cons]
    rw [rowOn_thresh_eq_nil_iff]
    have := ih (y + 1)
    simp only [cvThreshold] at this
    rw [this]
    constructor
    · rintro ⟨h1, h2⟩ r hr
      rcases hr with rfl | hr
      · exact h1
      · exact h2 r hr
    · intro h
      exact ⟨h row (Or.inl rfl), fun r hr => h r (Or.inr hr)⟩

lemma contoursOf_eq_nil_iff (p : Plane) (t : Nat) :
    contoursOf p t = [] ↔ ∀ row ∈ p, ∀ v ∈ row, v ≤ t := by
  unfold contoursOf findContoursM
  rw [← planeOnFrom_thresh_eq_nil_iff t 0 p]
  unfold onCoords
  cases h : planeOnFrom 0 (cvThreshold p t) with
  | nil => simp [extractComponents]
  | cons s rest => simp [extractComponents]

lemma pyInt_eq_floor (q : ℚ) (h : 0 ≤ q) : pyInt q = ⌊q⌋ := if_pos h

lemma epsCentroidCoord_nonneg (s a : Nat) : 0 ≤ epsCentroidCoord s a := by
  unfold epsCentroidCoord
  have hq : (0 : ℚ) ≤ (s : ℚ) / ((a : ℚ) + momentEps) := by
    apply div_nonneg
    · positivity
    · unfold momentEps; positivity
  rw [pyInt_eq_floor _ hq]
  exact Int.floor_nonneg.mpr hq

lemma compute_center_ne_sentinel (c : List (Nat × Nat)) : compute_center c ≠ (-1, -1) := by
  unfold compute_center
  intro h
  have h1 := congrArg Prod.fst h
  simp only at h1
  have := epsCentroidCoord_nonneg (sumX c) c.length
  omega

lemma detect_LED_eq_sentinel_iff (p : Plane) (t : Nat) :
    detect_LED p t = (-1, -1) ↔ ∀ row ∈ p, ∀ v ∈ row, v ≤ t := by
  unfold detect_LED
  by_cases h : contoursOf p t = []
  · rw [if_pos h]
    simpa using (contoursOf_eq_nil_iff p t).mp h
  · rw [if_neg h]
    constructor
    · intro hc
      exact absurd hc (compute_center_ne_sentinel _)
    · intro hall
      exact absurd ((contoursOf_eq_nil_iff p t).mpr hall) h

/- ------------------------------------------------------------------ -/
/- Claims.                                                             -/
/- ------------------------------------------------------------------ -/

/-- Claim C1: for every intensity plane and threshold, detect returns the
    sentinel (-1, -1) if and only if no pixel of the plane is strictly greater
    than the threshold. -/
theorem claim_C1 (p : Plane) (t : Nat) :
    detect_LED p t = (-1, -1) ↔ ∀ row ∈ p, ∀ v ∈ row, v ≤ t :=
  detect_LED_eq_sentinel_iff p t

/-- Claim C5: preparing a message for the sentinel yields exactly (-1, -1)
    regardless of the pixel coordinate mode (the sentinel is never divided by
    the frame size), and in pixel coordinate mode every position passes
    through unchanged as raw floats. -/
theorem claim_C5 (pc : Bool) (fs : Nat × Nat) (pos : Pos) :
    prepare_message pc (-1, -1) fs = (-1, -1, (fs.1 : ℚ), (fs.2 : ℚ)) ∧
    prepare_message true pos fs = ((pos.1 : ℚ), (pos.2 : ℚ), (fs.1 : ℚ), (fs.2 : ℚ)) := by
  constructor
  · unfold prepare_message
    rw [if_pos (by simp)]
    norm_num
  · unfold prepare_message
    rw [if_pos (by simp)]

/-- Claim C9 counterexample: the loop body contains the display key wait of
    cv2.waitKey(0) (line 65), an external wait distinct from the frame read,
    so the frame read is not the only blocking point of an iteration. -/
theorem claim_C9_cex :
    LoopEvent.waitKeyStep ∈ loopBodyEvents ∧
    LoopEvent.waitKeyStep.isExternalWait = true ∧
    LoopEvent.waitKeyStep ≠ LoopEvent.readFrame := by
  decide

/-- Claim C9 (amended): each loop iteration has exactly two external wait
    points, the frame read at its start and the cv2.waitKey(0) key wait after
    dispatch; every other step computes, accumulates, dispatches or draws
    without waiting on external input. -/
theorem claim_C9 :
    loopBodyEvents.filter (fun e => e.isExternalWait) =
      [LoopEvent.readFrame, LoopEvent.waitKeyStep] ∧
    ∀ e ∈ loopBodyEvents, e.isExternalWait = true →
      e = LoopEvent.readFrame ∨ e = LoopEvent.waitKeyStep := by
  decide

/-- Claim C10: with the duplicated b key of the dictionary literals at lines
    170 and 171, the tracked and dispatched channels are exactly r and b, the
    g threshold and g port values are discarded, and channel b is bound to the
    b threshold and the b port. -/
theorem claim_C10 (rThr gThr bThr rPort gPort bPort : Nat) :
    mainThresholds rThr gThr bThr = [("r", rThr), ("b", bThr)] ∧
    (mainThresholds rThr gThr bThr).map Prod.fst = ["r", "b"] ∧
    mainPorts rPort gPort bPort = [("r", rPort), ("b", bPort)] ∧
    (mainPorts rPort gPort bPort).map Prod.fst = ["r", "b"] := by
  refine ⟨rfl, rfl, rfl, rfl⟩

lemma floor_cast_div_nat (s a : Nat) (ha : 1 ≤ a) :
    ⌊(s : ℚ) / (a : ℚ)⌋ = ((s / a : Nat) : Int) := by
  obtain ⟨F, hF⟩ : ∃ F, s / a = F := ⟨_, rfl⟩
  obtain ⟨R, hR⟩ : ∃ R, s % a = R := ⟨_, rfl⟩
  have hmod : a * F + R = s := by rw [← hF, ← hR]; exact Nat.div_add_mod s a
  have hmlt : R < a := by rw [← hR]; exact Nat.mod_lt s (by omega)
  have ha0 : (0 : ℚ) < (a : ℚ) := by exact_mod_cast Nat.lt_of_lt_of_le Nat.zero_lt_one ha
  have hcast : (a : ℚ) * (F : ℚ) + (R : ℚ) = (s : ℚ) := by exact_mod_cast hmod
  have hmltq : (R : ℚ) < (a : ℚ) := by exact_mod_cast hmlt
  have hR0 : (0 : ℚ) ≤ (R : ℚ) := by positivity
  rw [hF, Int.floor_eq_iff]
  constructor
  · rw [le_div_iff ha0]
    push_cast
    nlinarith
  · rw [div_lt_iff ha0]
    push_cast
    nlinarith

lemma floor_eps_eq_floor (s a : Nat) (ha : 1 ≤ a) (hnd : ¬ a ∣ s)
    (hb : s ≤ 1000000 * a) :
    ⌊(s : ℚ) / ((a : ℚ) + momentEps)⌋ = ⌊(s : ℚ) / (a : ℚ)⌋ := by
  obtain ⟨F, hF⟩ : ∃ F, s / a = F := ⟨_, rfl⟩
  obtain ⟨R, hR⟩ : ∃ R, s % a = R := ⟨_, rfl⟩
  have hmod : a * F + R = s := by rw [← hF, ← hR]; exact Nat.div_add_mod s a
  have hmlt : R < a := by rw [← hR]; exact Nat.mod_lt s (by omega)
  have hm1 : 1 ≤ R := by
    rcases Nat.eq_zero_or_pos R with h0 | h1
    · rw [h0] at hR
      exact absurd (Nat.dvd_of_mod_eq_zero hR) hnd
    · exact h1
  have hF6 : F ≤ 1000000 := by
    have h1 : s / a ≤ 1000000 * a / a := Nat.div_le_div_right hb
    rw [hF, Nat.mul_div_cancel 1000000 (by omega)] at h1
    exact h1
  have ha0 : (0 : ℚ) < (a : ℚ) := by exact_mod_cast Nat.lt_of_lt_of_le Nat.zero_lt_one ha
  have hden : (0 : ℚ) < (a : ℚ) + momentEps := by unfold momentEps; positivity
  have hcast : (a : ℚ) * (F : ℚ) + (R : ℚ) = (s : ℚ) := by exact_mod_cast hmod
  have hm1q : (1 : ℚ) ≤ (R : ℚ) := by exact_mod_cast hm1
  have hmltq : (R : ℚ) < (a : ℚ) := by exact_mod_cast hmlt
  have hF6q : (F : ℚ) ≤ 1000000 := by exact_mod_cast hF6
  have hFq0 : (0 : ℚ) ≤ (F : ℚ) := by positivity
  rw [floor_cast_div_nat s a ha, hF, Int.floor_eq_iff]
  constructor
  · rw [le_div_iff hden]
    push_cast
    unfold momentEps
    nlinarith
  · rw [div_lt_iff hden]
    push_cast
    unfold momentEps
    nlinarith

lemma floor_eps_dvd (a k : Nat) (ha : 1 ≤ a) (hk : 1 ≤ k) (hk6 : k ≤ 1000000) :
    ⌊((k * a : Nat) : ℚ) / ((a : ℚ) + momentEps)⌋ = (k : Int) - 1 := by
  have ha0 : (0 : ℚ) < (a : ℚ) := by exact_mod_cast Nat.lt_of_lt_of_le Nat.zero_lt_one ha
  have hden : (0 : ℚ) < (a : ℚ) + momentEps := by unfold momentEps; positivity
  have ha1 : (1 : ℚ) ≤ (a : ℚ) := by exact_mod_cast ha
  have hk1 : (1 : ℚ) ≤ (k : ℚ) := by exact_mod_cast hk
  have hk6q : (k : ℚ) ≤ 1000000 := by exact_mod_cast hk6
  rw [Int.floor_eq_iff]
  constructor
  · rw [le_div_iff hden]
    push_cast
    unfold momentEps
    nlinarith
  · rw [div_lt_iff hden]
    push_cast
    unfold momentEps
    nlinarith

lemma epsCentroid_eq_exact (s a : Nat) (ha : 1 ≤ a) (hnd : ¬ a ∣ s)
    (hb : s ≤ 1000000 * a) :
    epsCentroidCoord s a = exactCentroidCoord s a := by
  unfold epsCentroidCoord exactCentroidCoord
  have ha0 : (0 : ℚ) < (a : ℚ) := by exact_mod_cast Nat.lt_of_lt_of_le Nat.zero_lt_one ha
  have hden : (0 : ℚ) < (a : ℚ) + momentEps := by unfold momentEps; positivity
  rw [pyInt_eq_floor _ (div_nonneg (by positivity) (le_of_lt hden)),
      pyInt_eq_floor _ (div_nonneg (by positivity) (le_of_lt ha0))]
  exact floor_eps_eq_floor s a ha hnd hb

lemma epsCentroid_dvd (a k : Nat) (ha : 1 ≤ a) (hk : 1 ≤ k) (hk6 : k ≤ 1000000) :
    epsCentroidCoord (k * a) a = exactCentroidCoord (k * a) a - 1 := by
  unfold epsCentroidCoord exactCentroidCoord
  have ha0 : (0 : ℚ) < (a : ℚ) := by exact_mod_cast Nat.lt_of_lt_of_le Nat.zero_lt_one ha
  have hden : (0 : ℚ) < (a : ℚ) + momentEps := by unfold momentEps; positivity
  rw [pyInt_eq_floor _ (div_nonneg (by positivity) (le_of_lt hden)),
      pyInt_eq_floor _ (div_nonneg (by positivity) (le_of_lt ha0))]
  rw [floor_eps_dvd a k ha hk hk6]
  have hq : ((k * a : Nat) : ℚ) / (a : ℚ) = (k : ℚ) := by
    push_cast
    field_simp
  rw [hq, Int.floor_natCast]

lemma epsCentroidCoord_eq_natDiv (s a : Nat) :
    epsCentroidCoord s a = (((1000000 * s) / (1000000 * a + 1) : Nat) : Int) := by
  unfold epsCentroidCoord
  have hden : (0 : ℚ) < (a : ℚ) + momentEps := by unfold momentEps; positivity
  rw [pyInt_eq_floor _ (div_nonneg (by positivity) (le_of_lt hden))]
  have hq : (s : ℚ) / ((a : ℚ) + momentEps) =
      ((1000000 * s : Nat) : ℚ) / ((1000000 * a + 1 : Nat) : ℚ) := by
    unfold momentEps
    push_cast
    have h1 : (a : ℚ) + 1 / 1000000 ≠ 0 := by positivity
    have h2 : (1000000 : ℚ) * (a : ℚ) + 1 ≠ 0 := by positivity
    field_simp
    ring
  rw [hq, floor_cast_div_nat _ _ (by omega)]

lemma exactCentroidCoord_eq_natDiv (s a : Nat) :
    exactCentroidCoord s a = ((s / a : Nat) : Int) := by
  unfold exactCentroidCoord
  rcases Nat.eq_zero_or_pos a with rfl | ha
  · simp [pyInt]
  · rw [pyInt_eq_floor _ (div_nonneg (by positivity) (by positivity))]
    exact floor_cast_div_nat s a ha

lemma specTruncatedMean_eq_natDiv (c : List (Nat × Nat)) :
    specTruncatedMean c =
      (((sumX c / c.length : Nat) : Int), ((sumY c / c.length : Nat) : Int)) := by
  unfold specTruncatedMean
  rw [exactCentroidCoord_eq_natDiv, exactCentroidCoord_eq_natDiv]

lemma compute_center_eq_centerNat (c : List (Nat × Nat)) :
    compute_center c = centerNat c := by
  unfold compute_center centerNat
  rw [epsCentroidCoord_eq_natDiv, epsCentroidCoord_eq_natDiv]

lemma listMaxQ_map_cast : ∀ l : List Nat,
    listMaxQ (List.map (Nat.cast : Nat → ℚ) l) = (listMaxNat l : ℚ) := by
  intro l
  induction l with
  | nil => simp [listMaxQ, listMaxNat]
  | cons x xs ih =>
    cases xs with
    | nil => simp [listMaxQ, listMaxNat]
    | cons y ys =>
      rw [List.map_cons, List.map_cons, listMaxQ, listMaxNat, ← List.map_cons, ih]
      push_cast
      rfl

lemma npArgmax_map_cast : ∀ l : List Nat,
    npArgmax (List.map (Nat.cast : Nat → ℚ) l) = npArgmaxNat l := by
  intro l
  induction l with
  | nil => rfl
  | cons x xs ih =>
    cases xs with
    | nil => rfl
    | cons y ys =>
      rw [List.map_cons, List.map_cons, npArgmax, npArgmaxNat, ← List.map_cons,
          listMaxQ_map_cast]
      by_cases h : listMaxNat (y :: ys) ≤ x
      · rw [if_pos (by exact_mod_cast h), if_pos h]
      · rw [if_neg (by exact_mod_cast h), if_neg h, ih]

lemma contourArea_map_eq (cs : List (List (Nat × Nat))) :
    cs.map contourArea = List.map (Nat.cast : Nat → ℚ) (cs.map List.length) := by
  rw [List.map_map]
  rfl

lemma detect_LED_eq_detectNat (p : Plane) (t : Nat) : detect_LED p t = detectNat p t := by
  unfold detect_LED detectNat
  by_cases h : contoursOf p t = []
  · rw [if_pos h, if_pos h]
  · rw [if_neg h, if_neg h, contourArea_map_eq, npArgmax_map_cast,
        compute_center_eq_centerNat]

lemma detectSelected_eq_natSel (p : Plane) (t : Nat) :
    detectSelected p t = detectSelectedNat p t := by
  unfold detectSelected detectSelectedNat
  by_cases h : contoursOf p t = []
  · rw [if_pos h, if_pos h]
  · rw [if_neg h, if_neg h, contourArea_map_eq, npArgmax_map_cast]

lemma detectAll_eq_detectAllNat (planes : List (String × Plane)) :
    ∀ cts : List (String × Nat), detectAll planes cts = detectAllNat planes cts := by
  intro cts
  induction cts with
  | nil => rfl
  | cons ct cts ih =>
    rw [detectAll, detectAllNat, ih]
    cases lookupStr planes ct.1 with
    | none => rfl
    | some pl =>
      cases detectAllNat planes cts with
      | none => rfl
      | some rest => simp [detect_LED_eq_detectNat]

lemma track_eq_trackNat (cfg : TrackerCfg) :
    ∀ frames : List Frame, LEDTracker.track cfg frames = LEDTracker.trackNat cfg frames := by
  intro frames
  induction frames with
  | nil => rfl
  | cons f fs ih =>
    rw [LEDTracker.track, LEDTracker.trackNat, ih, processFrame, processFrameNat,
        detectAll_eq_detectAllNat]

lemma halfCast_le_iff (a b : Nat) : halfCast a ≤ halfCast b ↔ a ≤ b := by
  unfold halfCast
  rw [div_le_div_right (by norm_num : (0 : ℚ) < 2)]
  exact Nat.cast_le

lemma halfCast_max (a b : Nat) : max (halfCast a) (halfCast b) = halfCast (max a b) := by
  rcases le_total a b with h | h
  · rw [max_eq_right ((halfCast_le_iff a b).mpr h), max_eq_right h]
  · rw [max_eq_left ((halfCast_le_iff b a).mpr h), max_eq_left h]

lemma listMaxQ_map_half : ∀ l : List Nat,
    listMaxQ (List.map halfCast l) = halfCast (listMaxNat l) := by
  intro l
  induction l with
  | nil => norm_num [listMaxQ, listMaxNat, halfCast]
  | cons x xs ih =>
    cases xs with
    | nil => simp [listMaxQ, listMaxNat]
    | cons y ys =>
      rw [List.map_cons, List.map_cons, listMaxQ, listMaxNat, ← List.map_cons, ih,
          halfCast_max]

lemma npArgmax_map_half : ∀ l : List Nat,
    npArgmax (List.map halfCast l) = npArgmaxNat l := by
  intro l
  induction l with
  | nil => rfl
  | cons x xs ih =>
    cases xs with
    | nil => rfl
    | cons y ys =>
      rw [List.map_cons, List.map_cons, npArgmax, npArgmaxNat, ← List.map_cons,
          listMaxQ_map_half]
      by_cases h : listMaxNat (y :: ys) ≤ x
      · rw [if_pos ((halfCast_le_iff _ _).mpr h), if_pos h]
      · rw [if_neg (fun hc => h ((halfCast_le_iff _ _).mp hc)), if_neg h, ih]

lemma cvContourArea_map_eq (cs : List (List (Nat × Nat))) :
    cs.map cvContourArea = List.map halfCast (cs.map (fun c => (shoelace c).natAbs)) := by
  rw [List.map_map]
  rfl

lemma cvDetectSelected_eq_natSel (p : Plane) (t : Nat) :
    cvDetectSelected p t = cvDetectSelectedNat p t := by
  unfold cvDetectSelected cvDetectSelectedNat
  by_cases h : cvContoursOf p t = []
  · rw [if_pos h, if_pos h]
  · rw [if_neg h, if_neg h, cvContourArea_map_eq, npArgmax_map_half]

lemma cvDetect_eq_of_selected (p : Plane) (t : Nat) (c : List (Nat × Nat))
    (h : cvDetectSelected p t = some c) : cvDetect_LED p t = cvComputeCenter c := by
  unfold cvDetectSelected at h
  unfold cvDetect_LED
  by_cases hc : cvContoursOf p t = []
  · rw [if_pos hc] at h
    exact absurd h (by simp)
  · rw [if_neg hc] at h
    rw [if_neg hc, Option.some_inj.mp h]

lemma cvCenterCoord_eq_natDiv (S A : Nat) :
    pyInt (((S : ℚ) / 6) / ((A : ℚ) / 2 + momentEps)) =
      (((1000000 * S) / (3000000 * A + 6) : Nat) : Int) := by
  have hden : (0 : ℚ) < (A : ℚ) / 2 + momentEps := by unfold momentEps; positivity
  rw [pyInt_eq_floor _ (div_nonneg (by positivity) (le_of_lt hden))]
  have hq : ((S : ℚ) / 6) / ((A : ℚ) / 2 + momentEps) =
      ((1000000 * S : Nat) : ℚ) / ((3000000 * A + 6 : Nat) : ℚ) := by
    unfold momentEps
    push_cast
    have h1 : (A : ℚ) / 2 + 1 / 1000000 ≠ 0 := by positivity
    have h2 : (3000000 : ℚ) * (A : ℚ) + 6 ≠ 0 := by positivity
    field_simp
    ring
  rw [hq, floor_cast_div_nat _ _ (by omega)]

lemma cvComputeCenter_eq_natDiv (c : List (Nat × Nat))
    (h00 : 0 ≤ shoelace c) (h10 : 0 ≤ m10Num c) (h01 : 0 ≤ m01Num c) :
    cvComputeCenter c = cvCenterNat c := by
  have e10 : (m10Num c : ℚ) = ((m10Num c).toNat : ℚ) := by
    exact_mod_cast (Int.toNat_of_nonneg h10).symm
  have e01 : (m01Num c : ℚ) = ((m01Num c).toNat : ℚ) := by
    exact_mod_cast (Int.toNat_of_nonneg h01).symm
  have e00 : (shoelace c : ℚ) = ((shoelace c).toNat : ℚ) := by
    exact_mod_cast (Int.toNat_of_nonneg h00).symm
  unfold cvComputeCenter cvCenterNat greenM10 greenM01 greenM00
  rw [e10, e01, e00, cvCenterCoord_eq_natDiv, cvCenterCoord_eq_natDiv]

lemma cvDetect_eval (p : Plane) (t : Nat) (c : List (Nat × Nat))
    (hsel : cvDetectSelectedNat p t = some c)
    (h00 : 0 ≤ shoelace c) (h10 : 0 ≤ m10Num c) (h01 : 0 ≤ m01Num c) :
    cvDetect_LED p t = cvCenterNat c := by
  rw [cvDetect_eq_of_selected p t c (by rw [cvDetectSelected_eq_natSel]; exact hsel),
      cvComputeCenter_eq_natDiv c h00 h10 h01]

/-- Claim C8 counterexample: for the 25 pixel region of a fully bright 5 by 5
    plane (area 25, x coordinate sum 50) the epsilon guarded truncation gives
    1 while the plain truncation int(50 / 25) gives 2, and detect accordingly
    returns (1, 1) instead of the exact mean (2, 2): the epsilon does change
    the result for a region of area at least 1. -/
theorem claim_C8_cex :
    epsCentroidCoord 50 25 = 1 ∧
    exactCentroidCoord 50 25 = 2 ∧
    epsCentroidCoord 50 25 ≠ exactCentroidCoord 50 25 ∧
    (detectSelected c8plane 128).map (fun c => (sumX c, sumY c, c.length)) =
      some (50, 50, 25) ∧
    detect_LED c8plane 128 = (1, 1) := by
  refine ⟨?_, ?_, ?_, ?_, ?_⟩
  · rw [epsCentroidCoord_eq_natDiv]; decide
  · rw [exactCentroidCoord_eq_natDiv]; decide
  · rw [epsCentroidCoord_eq_natDiv, exactCentroidCoord_eq_natDiv]; decide
  · rw [detectSelected_eq_natSel]; decide
  · rw [detect_LED_eq_detectNat]; decide

/-- Claim C8 (amended): for a region with area at least 1 and moment sum at
    most 1000000 times the area, adding 1e-6 to the denominator leaves the
    truncated centroid coordinate unchanged whenever the exact quotient is not
    an integer; when the exact quotient is a positive integer, the epsilon
    lowers the truncated coordinate by exactly one. -/
theorem claim_C8 (s a : Nat) (ha : 1 ≤ a) (hb : s ≤ 1000000 * a) :
    (¬ a ∣ s → epsCentroidCoord s a = exactCentroidCoord s a) ∧
    (∀ k : Nat, s = k * a → 1 ≤ k → epsCentroidCoord s a = exactCentroidCoord s a - 1) := by
  constructor
  · intro hnd
    exact epsCentroid_eq_exact s a ha hnd hb
  · intro k hks hk
    subst hks
    have hk6 : k ≤ 1000000 := by
      have ha0 : 0 < a := by omega
      exact Nat.le_of_mul_le_mul_right hb ha0
    exact epsCentroid_dvd a k ha hk hk6

/-- Witness for claim C8 at concrete inputs: with area 3 the moment sum 7 has a
    non integer quotient and the epsilon changes nothing, while the moment sum
    6 has the integer quotient 2 and the epsilon lowers the result by one. -/
theorem claim_C8_wit :
    epsCentroidCoord 7 3 = exactCentroidCoord 7 3 ∧
    epsCentroidCoord 6 3 = exactCentroidCoord 6 3 - 1 :=
  ⟨(claim_C8 7 3 (by decide) (by decide)).1 (by decide),
   (claim_C8 6 3 (by decide) (by decide)).2 2 rfl (by decide)⟩

lemma detect_LED_eq_of_selected (p : Plane) (t : Nat) (c : List (Nat × Nat))
    (h : detectSelected p t = some c) : detect_LED p t = compute_center c := by
  unfold detectSelected at h
  unfold detect_LED
  by_cases hc : contoursOf p t = []
  · rw [if_pos hc] at h
    exact absurd h (by simp)
  · rw [if_neg hc] at h
    rw [if_neg hc, Option.some_inj.mp h]

/-- Claim C2 counterexample: the code does not return the truncated pixel sum
    mean of the selected region.  On the fully bright 3 by 3 plane the pixel
    mean is the integer (1, 1) but the Green moments of the traced contour
    (m10 = m01 = 4, m00 = 4) with the 1e-6 guard truncate to (0, 0); and for
    the L shaped region of lplane the pixel mean truncates to (6, 0) while
    the polygon moments of its contour (m10 = 8/3, m01 = 1/6, m00 = 1/2)
    make the code return (5, 0). -/
theorem claim_C2_cex :
    cvDetect_LED c2plane 128 = (0, 0) ∧
    (findContoursM (cvThreshold c2plane 128)).map (fun c => specTruncatedMean c) = [(1, 1)] ∧
    cvDetect_LED lplane 128 = (5, 0) ∧
    findContoursM (cvThreshold lplane 128) = [[(5, 0), (6, 0), (5, 1), (7, 0), (8, 0)]] ∧
    specTruncatedMean [(5, 0), (6, 0), (5, 1), (7, 0), (8, 0)] = (6, 0) ∧
    ((0, 0) : Pos) ≠ (1, 1) ∧ ((5, 0) : Pos) ≠ (6, 0) := by
  refine ⟨?_, ?_, ?_, by decide, ?_, by decide, by decide⟩
  · exact (cvDetect_eval c2plane 128 c2ring
      (by decide) (by decide) (by decide) (by decide)).trans (by decide)
  · simp only [specTruncatedMean_eq_natDiv]
    decide
  · exact (cvDetect_eval lplane 128 lring
      (by decide) (by decide) (by decide) (by decide)).trans (by decide)
  · rw [specTruncatedMean_eq_natDiv]
    decide

/-- Claim C2 (amended): the returned position is the truncated ratio of the
    Green formula moments of the traced boundary contour of the selected
    region, with 1e-6 added to m00 — not the truncated pixel sum mean.  When
    those moments are whole numbers, m10 = S10, m01 = S01, m00 = A (as for
    any solid rectangular blob), a coordinate whose exact moment ratio is not
    an integer equals the plain truncated ratio int(S/A) (for S at most
    1000000 A), and a coordinate whose exact ratio is a positive integer
    comes out exactly one less than it. -/
theorem claim_C2 (p : Plane) (t : Nat) (c : List (Nat × Nat))
    (hsel : cvDetectSelected p t = some c)
    (S10 S01 A : Nat)
    (h10 : m10Num c = 6 * (S10 : Int)) (h01 : m01Num c = 6 * (S01 : Int))
    (h00 : shoelace c = 2 * (A : Int))
    (hA : 1 ≤ A) (hbx : S10 ≤ 1000000 * A) (hby : S01 ≤ 1000000 * A) :
    ((¬ A ∣ S10) → (cvDetect_LED p t).1 = exactCentroidCoord S10 A) ∧
    ((¬ A ∣ S01) → (cvDetect_LED p t).2 = exactCentroidCoord S01 A) ∧
    (∀ k : Nat, S10 = k * A → 1 ≤ k → (cvDetect_LED p t).1 = exactCentroidCoord S10 A - 1) ∧
    (∀ k : Nat, S01 = k * A → 1 ≤ k → (cvDetect_LED p t).2 = exactCentroidCoord S01 A - 1) := by
  have hdet : cvDetect_LED p t = cvComputeCenter c := cvDetect_eq_of_selected p t c hsel
  have hm10 : greenM10 c = (S10 : ℚ) := by
    unfold greenM10
    rw [h10]
    push_cast
    exact mul_div_cancel_left₀ _ (by norm_num)
  have hm01 : greenM01 c = (S01 : ℚ) := by
    unfold greenM01
    rw [h01]
    push_cast
    exact mul_div_cancel_left₀ _ (by norm_num)
  have hm00 : greenM00 c = (A : ℚ) := by
    unfold greenM00
    rw [h00]
    push_cast
    exact mul_div_cancel_left₀ _ (by norm_num)
  have hx : (cvDetect_LED p t).1 = epsCentroidCoord S10 A := by
    rw [hdet]
    show pyInt (greenM10 c / (greenM00 c + momentEps)) = _
    rw [hm10, hm00]
    rfl
  have hy : (cvDetect_LED p t).2 = epsCentroidCoord S01 A := by
    rw [hdet]
    show pyInt (greenM01 c / (greenM00 c + momentEps)) = _
    rw [hm01, hm00]
    rfl
  refine ⟨?_, ?_, ?_, ?_⟩
  · intro hnd
    rw [hx]
    exact epsCentroid_eq_exact S10 A hA hnd hbx
  · intro hnd
    rw [hy]
    exact epsCentroid_eq_exact S01 A hA hnd hby
  · intro k hk hk1
    have hk6 : k ≤ 1000000 := by
      rw [hk] at hbx
      exact Nat.le_of_mul_le_mul_right hbx (by omega)
    subst hk
    rw [hx]
    exact epsCentroid_dvd A k hA hk1 hk6
  · intro k hk hk1
    have hk6 : k ≤ 1000000 := by
      rw [hk] at hby
      exact Nat.le_of_mul_le_mul_right hby (by omega)
    subst hk
    rw [hy]
    exact epsCentroid_dvd A k hA hk1 hk6

/-- Witness for claim C2: an L shaped three pixel region with coordinate sums 1
    and 1, where detect returns exactly the truncated mean (0, 0). -/
lemma le_listMaxQ : ∀ (l : List ℚ) (j : Nat), j < l.length → l.getD j 0 ≤ listMaxQ l := by
  intro l
  induction l with
  | nil => intro j hj; simp at hj
  | cons x xs ih =>
    intro j hj
    cases xs with
    | nil =>
      have hj0 : j = 0 := by simp at hj; omega
      subst hj0
      simp [listMaxQ, List.getD_cons_zero]
    | cons y ys =>
      cases j with
      | zero =>
        rw [listMaxQ, List.getD_cons_zero]
        exact le_max_left _ _
      | succ k =>
        rw [listMaxQ, List.getD_cons_succ]
        have hk : k < (y :: ys).length := by simpa using hj
        exact le_trans (ih k hk) (le_max_right _ _)

lemma listMaxQ_le : ∀ (l : List ℚ) (m : ℚ), l ≠ [] →
    (∀ j, j < l.length → l.getD j 0 ≤ m) → listMaxQ l ≤ m := by
  intro l
  induction l with
  | nil => intro m hne; exact absurd rfl hne
  | cons x xs ih =>
    intro m hne h
    cases xs with
    | nil => simpa [listMaxQ] using h 0 (by simp)
    | cons y ys =>
      rw [listMaxQ]
      apply max_le
      · simpa [List.getD_cons_zero] using h 0 (by simp)
      · apply ih m (by simp)
        intro j hj
        have := h (j + 1) (by simpa using hj)
        simpa [List.getD_cons_succ] using this

lemma npArgmax_eq : ∀ (l : List ℚ) (i : Nat), i < l.length →
    (∀ j, j < l.length → l.getD j 0 ≤ l.getD i 0) →
    (∀ j, j < i → l.getD j 0 < l.getD i 0) →
    npArgmax l = i := by
  intro l
  induction l with
  | nil => intro i hi; simp at hi
  | cons x xs ih =>
    intro i hi hmax hfirst
    cases xs with
    | nil =>
      have : i = 0 := by simp at hi; omega
      subst this
      rfl
    | cons y ys =>
      cases i with
      | zero =>
        rw [npArgmax, if_pos]
        apply listMaxQ_le _ _ (by simp)
        intro j hj
        have := hmax (j + 1) (by simpa using hj)
        simpa [List.getD_cons_succ, List.getD_cons_zero] using this
      | succ k =>
        have hk : k < (y :: ys).length := by simpa using hi
        have hx : x < (y :: ys).getD k 0 := by
          have := hfirst 0 (Nat.succ_pos k)
          simpa [List.getD_cons_zero, List.getD_cons_succ] using this
        have hcond : ¬ listMaxQ (y :: ys) ≤ x := by
          intro hle
          have h1 : (y :: ys).getD k 0 ≤ listMaxQ (y :: ys) := le_listMaxQ _ k hk
          linarith
        rw [npArgmax, if_neg hcond]
        congr 1
        apply ih k hk
        · intro j hj
          have := hmax (j + 1) (by simpa using hj)
          simpa [List.getD_cons_succ] using this
        · intro j hj
          have := hfirst (j + 1) (by omega)
          simpa [List.getD_cons_succ] using this

lemma getD_map_contourArea : ∀ (cs : List (List (Nat × Nat))) (j : Nat), j < cs.length →
    (cs.map contourArea).getD j 0 = contourArea (cs.getD j []) := by
  intro cs
  induction cs with
  | nil => intro j hj; simp at hj
  | cons c cs ih =>
    intro j hj
    cases j with
    | zero => simp [List.getD_cons_zero]
    | succ k =>
      simp only [List.map_cons, List.getD_cons_succ]
      exact ih k (by simpa using hj)

lemma getD_map_cvContourArea : ∀ (cs : List (List (Nat × Nat))) (j : Nat), j < cs.length →
    (cs.map cvContourArea).getD j 0 = cvContourArea (cs.getD j []) := by
  intro cs
  induction cs with
  | nil => intro j hj; simp at hj
  | cons c cs ih =>
    intro j hj
    cases j with
    | zero => simp [List.getD_cons_zero]
    | succ k =>
      simp only [List.map_cons, List.getD_cons_succ]
      exact ih k (by simpa using hj)

/-- Claim C3 counterexample: on c3plane the five pixel line has the greater
    pixel area (5 against 4) and its truncated pixel mean is (3, 0), yet
    detect returns (2, 3), the center of the two by two block, because
    cv2.contourArea measures the traced boundary polygon (Green area 0 for
    the thin line against 1 for the block), not the pixel area — so the
    greatest pixel area region does not win. -/
theorem claim_C3_cex :
    findContoursM (cvThreshold c3plane 128) =
      [[(1, 0), (2, 0), (3, 0), (4, 0), (5, 0)], [(2, 3), (3, 3), (2, 4), (3, 4)]] ∧
    (cvContoursOf c3plane 128).map (fun c => (shoelace c).natAbs) = [0, 2] ∧
    cvDetect_LED c3plane 128 = (2, 3) ∧
    specTruncatedMean [(1, 0), (2, 0), (3, 0), (4, 0), (5, 0)] = (3, 0) ∧
    ((2, 3) : Pos) ≠ (3, 0) := by
  refine ⟨by decide, by decide, ?_, ?_, by decide⟩
  · exact (cvDetect_eval c3plane 128 [(2, 3), (3, 3), (3, 4), (2, 4)]
      (by decide) (by decide) (by decide) (by decide)).trans (by decide)
  · rw [specTruncatedMean_eq_natDiv]
    decide

/-- Claim C3 (amended): detect selects the contour with the greatest
    cv2.contourArea — the Green formula area of its traced boundary polygon —
    with ties broken by the first such contour in the deterministic
    extraction order; this is not the greatest pixel area, since a thin
    region of many pixels has polygon area 0 and loses to a small solid
    block, as the counterexample shows.  Whenever index i holds a contour of
    maximal polygon area, strictly greater than every earlier one, detect
    returns the epsilon guarded moment center of exactly that contour. -/
theorem claim_C3 (p : Plane) (t : Nat) (i : Nat)
    (hi : i < (cvContoursOf p t).length)
    (hmax : ∀ j, j < (cvContoursOf p t).length →
      cvContourArea ((cvContoursOf p t).getD j []) ≤
        cvContourArea ((cvContoursOf p t).getD i []))
    (hfirst : ∀ j, j < i →
      cvContourArea ((cvContoursOf p t).getD j []) <
        cvContourArea ((cvContoursOf p t).getD i [])) :
    cvDetect_LED p t = cvComputeCenter ((cvContoursOf p t).getD i []) := by
  have hne : cvContoursOf p t ≠ [] := by
    intro h
    rw [h] at hi
    simp at hi
  have hidx : npArgmax ((cvContoursOf p t).map cvContourArea) = i := by
    apply npArgmax_eq
    · simpa using hi
    · intro j hj
      rw [List.length_map] at hj
      rw [getD_map_cvContourArea _ j hj, getD_map_cvContourArea _ i hi]
      exact hmax j hj
    · intro j hj
      rw [getD_map_cvContourArea _ j (lt_trans hj hi), getD_map_cvContourArea _ i hi]
      exact hfirst j hj
  unfold cvDetect_LED
  rw [if_neg hne, hidx]

/-- Witness for claim C3: a plane with a single pixel region followed by a
    two pixel thin region; both traced contours have polygon area 0, so the
    tie goes to the first contour and detect returns its center (0, 0). -/
theorem claim_C3_wit : cvDetect_LED [[200, 0, 200, 200]] 128 = (0, 0) := by
  have hcv : cvContoursOf [[200, 0, 200, 200]] 128 = [[(0, 0)], [(2, 0), (3, 0)]] := by decide
  have ha0 : cvContourArea [((0 : Nat), (0 : Nat))] = 0 := by
    unfold cvContourArea halfCast
    rw [show (shoelace [((0 : Nat), (0 : Nat))]).natAbs = 0 from by decide]
    norm_num
  have ha1 : cvContourArea [((2 : Nat), (0 : Nat)), (3, 0)] = 0 := by
    unfold cvContourArea halfCast
    rw [show (shoelace [((2 : Nat), (0 : Nat)), (3, 0)]).natAbs = 0 from by decide]
    norm_num
  refine (claim_C3 [[200, 0, 200, 200]] 128 0 ?_ ?_ ?_).trans ?_
  · rw [hcv]; decide
  · intro j hj
    rw [hcv] at hj ⊢
    simp only [List.length_cons, List.length_nil] at hj
    interval_cases j
    · exact le_refl _
    · simp only [List.getD_cons_succ, List.getD_cons_zero]
      rw [ha1, ha0]
  · intro j hj
    exact absurd hj (Nat.not_lt_zero j)
  · rw [hcv]
    simp only [List.getD_cons_zero]
    rw [cvComputeCenter_eq_natDiv _ (by decide) (by decide) (by decide)]
    decide

/-- Witness for claim C2: on the fully bright 6 by 3 plane the selected
    contour is the border ring with whole Green moments m10 = 25, m01 = 10,
    m00 = 10.  The x ratio 25/10 is not an integer and the x coordinate is
    the plain truncation int(25/10) = 2; the y ratio is the integer 1 and the
    epsilon makes the y coordinate one less. -/
theorem claim_C2_wit :
    (cvDetect_LED blockPlane 128).1 = exactCentroidCoord 25 10 ∧
    (cvDetect_LED blockPlane 128).2 = exactCentroidCoord 10 10 - 1 := by
  have h := claim_C2 blockPlane 128 blockRing
    (by rw [cvDetectSelected_eq_natSel]; decide)
    25 10 10 (by decide) (by decide) (by decide) (by decide) (by decide) (by decide)
  exact ⟨h.1 (by decide), h.2.2.2 1 (by decide) (by decide)⟩

lemma lookup_channelPlanes (f : Frame) (c : String)
    (hc : c = "r" ∨ c = "g" ∨ c = "b") :
    lookupStr (channelPlanes f) c = some (channelPlaneOf c f) := by
  rcases hc with rfl | rfl | rfl <;> rfl

lemma detectAll_eq_of_keys (f : Frame) :
    ∀ cts : List (String × Nat),
      (∀ ct ∈ cts, ct.1 = "r" ∨ ct.1 = "g" ∨ ct.1 = "b") →
      detectAll (channelPlanes f) cts =
        some (cts.map (fun ct => (ct.1, detect_LED (channelPlaneOf ct.1 f) ct.2))) := by
  intro cts
  induction cts with
  | nil => intro _; rfl
  | cons ct cts ih =>
    intro h
    rw [detectAll, lookup_channelPlanes f ct.1 (h ct (by simp)),
        ih (fun x hx => h x (List.mem_cons_of_mem _ hx))]
    rfl

lemma zipWith_map_same {α β γ δ : Type} (g : β → γ → δ) (f1 : α → β) (f2 : α → γ) :
    ∀ l : List α, List.zipWith g (l.map f1) (l.map f2) = l.map (fun x => g (f1 x) (f2 x)) := by
  intro l
  induction l with
  | nil => rfl
  | cons x xs ih => simp [ih]

lemma track_characterization (cfg : TrackerCfg)
    (h : ∀ ct ∈ cfg.thresholds, ct.1 = "r" ∨ ct.1 = "g" ∨ ct.1 = "b") :
    ∀ frames : List Frame,
      LEDTracker.track cfg frames =
        some (cfg.thresholds.map (fun ct => (ct.1, frames.map (fun f =>
                detect_LED (channelPlaneOf ct.1 (crop_frame f cfg.roi)) ct.2))),
              frames.map (fun f =>
                (cfg.thresholds.map (fun ct => (ct.1,
                   detect_LED (channelPlaneOf ct.1 (crop_frame f cfg.roi)) ct.2)),
                 cfg.frame_size))) := by
  intro frames
  induction frames with
  | nil =>
    rw [LEDTracker.track]
    simp
  | cons f fs ih =>
    rw [LEDTracker.track, processFrame,
        detectAll_eq_of_keys (crop_frame f cfg.roi) cfg.thresholds h, ih]
    show some (consTrajs _ _, _) = _
    unfold consTrajs
    rw [zipWith_map_same]
    rfl

/-- Claim C7: for any sequence of frames delivered before the source fails,
    tracking with channels among r, g, b terminates gracefully with a result
    (no failure), the trajectory of each tracked channel is exactly the list
    of per frame detections in frame arrival order (appended once per channel
    per frame, never reordered or edited), and in particular every trajectory
    has length equal to the number of frames successfully read. -/
theorem claim_C7 (cfg : TrackerCfg) (frames : List Frame)
    (h : ∀ ct ∈ cfg.thresholds, ct.1 = "r" ∨ ct.1 = "g" ∨ ct.1 = "b") :
    LEDTracker.track cfg frames =
      some (cfg.thresholds.map (fun ct => (ct.1, frames.map (fun f =>
              detect_LED (channelPlaneOf ct.1 (crop_frame f cfg.roi)) ct.2))),
            frames.map (fun f =>
              (cfg.thresholds.map (fun ct => (ct.1,
                 detect_LED (channelPlaneOf ct.1 (crop_frame f cfg.roi)) ct.2)),
               cfg.frame_size))) ∧
    ∀ e ∈ cfg.thresholds.map (fun ct => (ct.1, frames.map (fun f =>
            detect_LED (channelPlaneOf ct.1 (crop_frame f cfg.roi)) ct.2))),
      e.2.length = frames.length := by
  refine ⟨track_characterization cfg h frames, ?_⟩
  intro e he
  simp only [List.mem_map] at he
  obtain ⟨ct, _, rfl⟩ := he
  simp

/-- Witness for claim C7: a one channel session over a single bright frame
    yields exactly one trajectory entry and one dispatched message. -/
theorem claim_C7_wit :
    LEDTracker.track ⟨[("r", 128)], none, (2, 2)⟩ [c7frame] =
      some ([("r", [(0, 0)])], [([("r", (0, 0))], (2, 2))]) := by
  have h := (claim_C7 ⟨[("r", 128)], none, (2, 2)⟩ [c7frame] (by decide)).1
  rw [h]
  simp only [List.map_cons, List.map_nil, detect_LED_eq_detectNat]
  rfl

lemma map_congr_mem {α β : Type} (l : List α) (f g : α → β)
    (h : ∀ a ∈ l, f a = g a) : l.map f = l.map g := by
  induction l with
  | nil => rfl
  | cons x xs ih =>
    rw [List.map_cons, List.map_cons, h x (by simp),
        ih (fun a ha => h a (List.mem_cons_of_mem _ ha))]

lemma crop_frame_mem (f : Frame) (roi : Option (Nat × Nat × Nat × Nat)) :
    ∀ row ∈ crop_frame f roi, ∀ px ∈ row, ∃ row0 ∈ f, px ∈ row0 := by
  intro row hrow px hpx
  cases roi with
  | none => exact ⟨row, hrow, hpx⟩
  | some r =>
    obtain ⟨t, l, b, rr⟩ := r
    simp only [crop_frame, List.mem_map] at hrow
    obtain ⟨row0, hrow0, rfl⟩ := hrow
    refine ⟨row0, ?_, ?_⟩
    · exact List.drop_subset _ _ (List.take_subset _ _ hrow0)
    · exact List.drop_subset _ _ (List.take_subset _ _ hpx)

lemma planeR_pixel_le (f : Frame) (hb : ∀ row ∈ f, ∀ px ∈ row, px.2.2 ≤ 255) :
    ∀ row ∈ planeR f, ∀ v ∈ row, v ≤ 255 := by
  intro row hrow v hv
  simp only [planeR, List.mem_map] at hrow
  obtain ⟨row0, hrow0, rfl⟩ := hrow
  simp only [List.mem_map] at hv
  obtain ⟨px, hpx, rfl⟩ := hv
  exact hb row0 hrow0 px hpx

lemma detect_red_sentinel (f : Frame) (roi : Option (Nat × Nat × Nat × Nat)) (t : Nat)
    (hb : ∀ row ∈ f, ∀ px ∈ row, px.2.2 ≤ 255) (ht : 255 ≤ t) :
    detect_LED (channelPlaneOf "r" (crop_frame f roi)) t = (-1, -1) := by
  rw [show channelPlaneOf "r" (crop_frame f roi) = planeR (crop_frame f roi) from rfl,
      detect_LED_eq_sentinel_iff]
  intro row hrow v hv
  have hcrop : ∀ row ∈ crop_frame f roi, ∀ px ∈ row, px.2.2 ≤ 255 := by
    intro r hr px hpx
    obtain ⟨row0, hrow0, hpx0⟩ := crop_frame_mem f roi r hr px hpx
    exact hb row0 hrow0 px hpx0
  have := planeR_pixel_le (crop_frame f roi) hcrop row hrow v hv
  omega

/-- Claim C6 counterexample: no configuration time validation exists.  With the
    out of range threshold 300 the tracker is constructed and processes a
    frame (one trajectory entry, one dispatched message); with the unknown
    channel key x the construction also succeeds, and the failure happens only
    while the first frame is processed; an out of bounds region of interest on
    a 2 by 2 frame is silently clamped and the session runs. -/
theorem claim_C6_cex :
    LEDTracker.track (LEDTracker.init [("r", 300)] none ⟨2, 2⟩) [c6frame] =
      some ([("r", [(-1, -1)])], [([("r", (-1, -1))], (2, 2))]) ∧
    (LEDTracker.init [("r", 300)] none ⟨2, 2⟩).thresholds = [("r", 300)] ∧
    LEDTracker.track (LEDTracker.init [("x", 10)] none ⟨2, 2⟩) [c6frame] = none ∧
    (LEDTracker.init [("x", 10)] none ⟨2, 2⟩).thresholds = [("x", 10)] ∧
    LEDTracker.track (LEDTracker.init [("r", 0)] (some (0, 0, 100, 100)) ⟨2, 2⟩) [c6frame] =
      some ([("r", [(0, 0)])], [([("r", (0, 0))], (2, 2))]) := by
  refine ⟨?_, rfl, ?_, rfl, ?_⟩ <;> (rw [track_eq_trackNat]; rfl)

/-- Claim C6 (amended): construction never fails and no configuration is
    rejected.  A threshold of at least 255 is silently accepted and simply
    yields the sentinel on every frame of 8 bit data, for any region of
    interest (in or out of bounds, since slicing clamps it); an unknown
    channel key fails only once frame processing starts, as the
    counterexample shows. -/
theorem claim_C6 (cam : CameraDev) (roi : Option (Nat × Nat × Nat × Nat))
    (frames : List Frame) (t : Nat)
    (hb : ∀ f ∈ frames, ∀ row ∈ f, ∀ px ∈ row, px.2.2 ≤ 255) (ht : 255 ≤ t) :
    LEDTracker.track (LEDTracker.init [("r", t)] roi cam) frames =
      some ([("r", frames.map (fun _ => ((-1, -1) : Pos)))],
            frames.map (fun _ => ([("r", ((-1, -1) : Pos))], (cam.width, cam.height)))) := by
  rw [track_characterization (LEDTracker.init [("r", t)] roi cam)
        (by
          intro ct hct
          have h2 : ct = ("r", t) := List.mem_singleton.mp hct
          rw [h2]
          left
          rfl) frames]
  have hdet : ∀ f ∈ frames, detect_LED (channelPlaneOf "r" (crop_frame f roi)) t = (-1, -1) :=
    fun f hf => detect_red_sentinel f roi t (hb f hf) ht
  have h1 : List.map (fun f => detect_LED (channelPlaneOf "r" (crop_frame f roi)) t) frames
      = List.map (fun _ => ((-1, -1) : Pos)) frames :=
    map_congr_mem frames _ _ hdet
  have h2 : List.map (fun f =>
        ([("r", detect_LED (channelPlaneOf "r" (crop_frame f roi)) t)],
         (cam.width, cam.height))) frames
      = List.map (fun _ => ([("r", ((-1, -1) : Pos))], (cam.width, cam.height))) frames :=
    map_congr_mem frames _ _ (fun f hf => by rw [hdet f hf])
  simp only [List.map_cons, List.map_nil, LEDTracker.init]
  rw [h1, h2]

/-- Witness for claim C6 at a concrete invalid configuration: the out of range
    threshold 256 is accepted and the session processes its frame, producing a
    sentinel trajectory entry and a dispatched message. -/
theorem claim_C6_wit :
    LEDTracker.track (LEDTracker.init [("r", 256)] none ⟨2, 2⟩) [c6frame] =
      some ([("r", [(-1, -1)])], [([("r", (-1, -1))], (2, 2))]) := by
  have h := claim_C6 ⟨2, 2⟩ none [c6frame] 256 (by decide) (by decide)
  simpa using h

lemma track_msgs_frame_size (cfg : TrackerCfg) :
    ∀ (frames : List Frame) (T : Trajs) (M : MsgLog),
      LEDTracker.track cfg frames = some (T, M) → ∀ m ∈ M, m.2 = cfg.frame_size := by
  intro frames
  induction frames with
  | nil =>
    intro T M h m hm
    rw [LEDTracker.track] at h
    obtain ⟨-, hM⟩ := Prod.mk.injEq _ _ _ _ ▸ Option.some_inj.mp h
    rw [← hM] at hm
    simp at hm
  | cons f fs ih =>
    intro T M h m hm
    rw [LEDTracker.track] at h
    cases hp : processFrame cfg f with
    | none => rw [hp] at h; exact absurd h (by simp)
    | some ps =>
      cases htr : LEDTracker.track cfg fs with
      | none => rw [hp, htr] at h; exact absurd h (by simp)
      | some pr =>
        obtain ⟨T0, M0⟩ := pr
        rw [hp, htr] at h
        obtain ⟨-, hM⟩ := Prod.mk.injEq _ _ _ _ ▸ Option.some_inj.mp h
        rw [← hM] at hm
        rcases List.mem_cons.mp hm with rfl | hm0
        · rfl
        · exact ih T0 M0 htr m hm0

/-- Claim C4 counterexample: a session with camera size 8 by 8 and region of
    interest (1, 1, 5, 5) detects at crop relative position (2, 1) inside a 4
    by 4 cropped frame, yet the dispatched message divides by the pre crop
    camera size and attaches it: the wire message is (1/4, 1/8, 8, 8) instead
    of the post crop (2/4, 1/4, 4, 4). -/
theorem claim_C4_cex :
    LEDTracker.track (LEDTracker.init [("r", 128)] (some (1, 1, 5, 5)) ⟨8, 8⟩) [roiFrame] =
      some ([("r", [(2, 1)])], [([("r", (2, 1))], (8, 8))]) ∧
    sentMessages false [([("r", (2, 1))], (8, 8))] = [[("r", (1/4, 1/8, 8, 8))]] ∧
    (crop_frame roiFrame (some (1, 1, 5, 5))).length = 4 ∧
    ((crop_frame roiFrame (some (1, 1, 5, 5))).headD []).length = 4 ∧
    ¬ ((1 / 4 : ℚ) = 2 / 4 ∧ (1 / 8 : ℚ) = 1 / 4) ∧ ¬ ((8 : ℚ) = 4) := by
  refine ⟨?_, ?_, by decide, by decide, by norm_num, by norm_num⟩
  · rw [track_eq_trackNat]
    rfl
  · have hp : prepare_message false (2, 1) (8, 8) = (1/4, 1/8, 8, 8) := by
      unfold prepare_message
      rw [if_neg (by simp)]
      norm_num
    simp [sentMessages, hp]

/-- Claim C4 (amended): every dispatched message carries the frame size stored
    at construction time, the camera reported pre crop size, which coincides
    with the size the detector sees only when no region of interest is set;
    with normalization enabled a non sentinel position is divided by that same
    pre crop size, and the resulting floats lie in the unit interval whenever
    the position lies within the camera frame. -/
theorem claim_C4 (cfg : TrackerCfg) (frames : List Frame) (T : Trajs) (M : MsgLog)
    (htr : LEDTracker.track cfg frames = some (T, M))
    (x y : Int) (W H : Nat)
    (hx0 : 0 ≤ x) (hy0 : 0 ≤ y) (hxW : x ≤ (W : Int)) (hyH : y ≤ (H : Int))
    (hW : 0 < W) (hH : 0 < H) :
    (∀ m ∈ M, m.2 = cfg.frame_size) ∧
    prepare_message false (x, y) (W, H) =
      ((x : ℚ) / (W : ℚ), (y : ℚ) / (H : ℚ), (W : ℚ), (H : ℚ)) ∧
    0 ≤ (x : ℚ) / (W : ℚ) ∧ (x : ℚ) / (W : ℚ) ≤ 1 ∧
    0 ≤ (y : ℚ) / (H : ℚ) ∧ (y : ℚ) / (H : ℚ) ≤ 1 := by
  have hWq : (0 : ℚ) < (W : ℚ) := by exact_mod_cast hW
  have hHq : (0 : ℚ) < (H : ℚ) := by exact_mod_cast hH
  have hxq : (0 : ℚ) ≤ (x : ℚ) := by exact_mod_cast hx0
  have hyq : (0 : ℚ) ≤ (y : ℚ) := by exact_mod_cast hy0
  have hxWq : (x : ℚ) ≤ (W : ℚ) := by exact_mod_cast hxW
  have hyHq : (y : ℚ) ≤ (H : ℚ) := by exact_mod_cast hyH
  refine ⟨track_msgs_frame_size cfg frames T M htr, ?_, ?_, ?_, ?_, ?_⟩
  · unfold prepare_message
    rw [if_neg]
    simp only [Bool.false_or, decide_eq_true_eq]
    intro hxy
    rw [Prod.mk.injEq] at hxy
    omega
  · exact div_nonneg hxq (le_of_lt hWq)
  · rw [div_le_one hWq]; exact hxWq
  · exact div_nonneg hyq (le_of_lt hHq)
  · rw [div_le_one hHq]; exact hyHq

/-- Witness for claim C4 at a concrete session without a region of interest:
    the message carries the camera size (2, 2) and the in frame position
    (0, 0) normalizes into the unit interval. -/
theorem claim_C4_wit :
    (∀ m ∈ ([([("r", ((0 : Int), (0 : Int)))], (2, 2))] : MsgLog), m.2 = ((2, 2) : Nat × Nat)) ∧
    prepare_message false (0, 0) (2, 2) =
      ((0 : ℚ) / (2 : ℚ), (0 : ℚ) / (2 : ℚ), (2 : ℚ), (2 : ℚ)) ∧
    0 ≤ (0 : ℚ) / (2 : ℚ) ∧ (0 : ℚ) / (2 : ℚ) ≤ 1 ∧
    0 ≤ (0 : ℚ) / (2 : ℚ) ∧ (0 : ℚ) / (2 : ℚ) ≤ 1 := by
  have h := claim_C4 ⟨[("r", 128)], none, (2, 2)⟩ [c7frame]
    [("r", [(0, 0)])] [([("r", (0, 0))], (2, 2))]
    (by rw [track_eq_trackNat]; rfl)
    0 0 2 2 (by decide) (by decide) (by decide) (by decide) (by decide) (by decide)
  simpa using h

end LEDTracking
